import Mathlib

/-!
Shallow embedding of the `module-discounts` repository (Django app) in Lean 4.

Sources embedded:
* `src/models.py` — `Coupon` and `Promotion` entities with their `status`,
  `is_valid`, `can_use` and `calculate_discount` members, and the
  `DiscountUsage` usage-ledger rows.
* `src/services/discount_service.py` — `DiscountService` with
  `validate_coupon`, `apply_coupon`, `get_active_promotions`,
  `get_applicable_promotions`, `calculate_order_discounts` and
  `record_coupon_usage`.

Modelling conventions:
* Python `Decimal` values are embedded as `ℚ` (the computations used by the
  code — addition, subtraction, multiplication, division by 100, `min`,
  `max` — are exact on the decimals involved, so `ℚ` is a faithful model).
* Django `DateTimeField` values are embedded as `Int` timestamps; the current
  time additionally carries the weekday and the time of day, which the
  promotion schedule checks read (`Instant`).
* Python truthiness tests on optional / numeric / string fields
  (`if self.usage_limit`, `if self.max_discount`, `if customer`,
  `if coupon_code`, `if self.days_of_week`, `if product_ids`) are embedded
  explicitly: `None`, zero, the empty string and the empty list are falsy.
* Database queries are embedded as list traversals over an explicit
  `ServiceState` (the fetched tables).  `QuerySet.get` is embedded as
  `getCouponByCode`, distinguishing the `DoesNotExist` outcome (caught by the
  service) from the `MultipleObjectsReturned` outcome (uncaught, so functions
  that can hit it return `Option`, `none` standing for the escaped exception).
* Case-insensitive code lookup (`code__iexact=code.strip()`) is embedded over
  `List Char` with explicit ASCII lowering and whitespace stripping, so that
  concrete instances evaluate inside the kernel.
-/

/-- ASCII lower-casing of one character, as used by case-insensitive
(`__iexact`) coupon-code comparison. -/
def asciiLowerChar (c : Char) : Char :=
  if 65 ≤ c.toNat ∧ c.toNat ≤ 90 then Char.ofNat (c.toNat + 32) else c

/-- Whitespace recognizer for `str.strip()` on coupon codes. -/
def isSpaceChar (c : Char) : Bool :=
  c = ' ' || c = '\t' || c = '\n' || c = '\r'

/-- `str.strip()` on a character list: drop whitespace from both ends. -/
def stripChars (l : List Char) : List Char :=
  ((l.dropWhile isSpaceChar).reverse.dropWhile isSpaceChar).reverse

/-- Lower-case a character list (for `__iexact` comparison). -/
def lowerChars (l : List Char) : List Char :=
  l.map asciiLowerChar

/-- `str.split(',')` on a character list, used for `days_of_week`. -/
def splitCommas : List Char → List (List Char)
  | [] => [[]]
  | c :: rest =>
    let r := splitCommas rest
    if c = ',' then [] :: r
    else
      match r with
      | [] => [[c]]
      | h :: t => (c :: h) :: t

/-- The single character `str(weekday)` for weekday digits 0–6. -/
def weekdayChar (d : Nat) : Char :=
  Char.ofNat (48 + d)

/-- Python truthiness of an optional string (`None` and `""` are falsy):
used for `if coupon_code:` and `if customer:`. -/
def strTruthy : Option String → Bool
  | none => false
  | some s => s ≠ ""

/-- The current time as the code observes it: an absolute timestamp for the
validity-window comparisons, plus the local weekday (0=Mon..6=Sun) and the
minute-of-day read by the promotion schedule checks. -/
structure Instant where
  stamp : Int
  weekday : Nat
  minuteOfDay : Int
deriving DecidableEq

/-- `Coupon` model fields (src/models.py).  `discount_type` is one of
`"percentage" | "fixed" | "buy_x_get_y"`; `scope` one of
`"order" | "products" | "categories"`.  `usage_limit` is nullable,
`valid_until` is nullable (open-ended when absent). -/
structure Coupon where
  id : String
  code : String
  name : String
  description : String
  discount_type : String
  discount_value : ℚ
  scope : String
  min_purchase : ℚ
  max_discount : Option ℚ
  usage_limit : Option Nat
  usage_per_customer : Nat
  usage_count : Nat
  valid_from : Int
  valid_until : Option Int
  buy_quantity : Option Nat
  get_quantity : Option Nat
  get_discount_percent : Option ℚ
  priority : Nat
  stackable : Bool
  is_active : Bool
deriving DecidableEq

/-- `Promotion` model fields (src/models.py).  Both validity bounds are
mandatory.  `product_members` / `category_members` embed the
`PromotionProduct` / `PromotionCategory` scope-membership join rows of this
promotion. -/
structure Promotion where
  id : String
  name : String
  description : String
  discount_type : String
  discount_value : ℚ
  scope : String
  min_purchase : Option ℚ
  max_discount : Option ℚ
  valid_from : Int
  valid_until : Int
  days_of_week : String
  start_time : Option Int
  end_time : Option Int
  buy_quantity : Option Nat
  get_quantity : Option Nat
  get_discount_percent : Option ℚ
  priority : Nat
  stackable : Bool
  is_active : Bool
  product_members : List String
  category_members : List String
deriving DecidableEq

/-- `DiscountUsage` row (src/models.py), restricted to the fields the
embedded code reads or writes.  `is_deleted` comes from the external
`HubBaseModel` base (the per-customer count filters on it). -/
structure UsageRecord where
  coupon_id : Option String
  promotion_id : Option String
  customer : Option String
  sale : Option String
  is_deleted : Bool
deriving DecidableEq

/-- `AppliedDiscount` dataclass (src/services/discount_service.py). -/
structure AppliedDiscount where
  source : String
  source_id : String
  source_name : String
  discount_type : String
  discount_value : ℚ
  discount_amount : ℚ
  original_total : ℚ
deriving DecidableEq

/-- `DiscountResult` dataclass (src/services/discount_service.py). -/
structure DiscountResult where
  original_total : ℚ
  discounted_total : ℚ
  total_discount : ℚ
  applied_discounts : List AppliedDiscount
  errors : List String
deriving DecidableEq

/-- The database state the service reads: the coupon and promotion tables
and the usage ledger. -/
structure ServiceState where
  coupons : List Coupon
  promotions : List Promotion
  usages : List UsageRecord
deriving DecidableEq

/-- Truthy-guarded exhaustion test
(`if self.usage_limit and self.usage_count >= self.usage_limit`). -/
def Coupon.usageExhausted (c : Coupon) : Bool :=
  match c.usage_limit with
  | none => false
  | some l => decide (l ≠ 0) && decide (c.usage_count ≥ l)

/-- Truthy-guarded expiry test
(`if self.valid_until and self.valid_until < now`). -/
def Coupon.pastUntil (c : Coupon) (now : Instant) : Bool :=
  match c.valid_until with
  | none => false
  | some u => decide (u < now.stamp)

/-- `Coupon.status` property (src/models.py lines 80–91): the first matching
state of `inactive`, `exhausted`, `scheduled`, `expired`, else `active`. -/
def Coupon.status (c : Coupon) (now : Instant) : String :=
  if !c.is_active then "inactive"
  else if c.usageExhausted then "exhausted"
  else if decide (now.stamp < c.valid_from) then "scheduled"
  else if c.pastUntil now then "expired"
  else "active"

/-- `Coupon.is_valid` property (src/models.py lines 93–95). -/
def Coupon.isValidNow (c : Coupon) (now : Instant) : Bool :=
  c.status now == "active"

/-- `Coupon.can_use` (src/models.py lines 103–117).  The per-customer usage
count is a database query in the source; here the caller passes the count
(`customerUses`), which the method consults only when `customer` is truthy
and `usage_per_customer` is nonzero, exactly as the source does. -/
def Coupon.can_use (c : Coupon) (now : Instant) (customer : Option String)
    (customerUses : Nat) (order_total : ℚ) : Bool × String :=
  if !(c.isValidNow now) then (false, "Coupon is " ++ c.status now)
  else if decide (c.min_purchase ≠ 0) && decide (order_total < c.min_purchase) then
    (false, "Minimum purchase of " ++ toString c.min_purchase ++ " required")
  else if strTruthy customer && decide (c.usage_per_customer ≠ 0)
      && decide (customerUses ≥ c.usage_per_customer) then
    (false, "Usage limit per customer reached")
  else (true, "Coupon is valid")

/-- `Coupon.calculate_discount` (src/models.py lines 119–130). -/
def Coupon.calculate_discount (c : Coupon) (order_total : ℚ) : ℚ :=
  if order_total < c.min_purchase then 0
  else if c.discount_type == "percentage" then
    let d := order_total * (c.discount_value / 100)
    match c.max_discount with
    | some m => if m ≠ 0 then min d m else d
    | none => d
  else if c.discount_type == "fixed" then min c.discount_value order_total
  else 0

/-- `Promotion.status` property (src/models.py lines 207–216). -/
def Promotion.status (p : Promotion) (now : Instant) : String :=
  if !p.is_active then "inactive"
  else if decide (now.stamp < p.valid_from) then "scheduled"
  else if decide (p.valid_until < now.stamp) then "expired"
  else "active"

/-- `Promotion.is_valid` property (src/models.py lines 218–235): active
status plus the day-of-week allow-set and the daily time window. -/
def Promotion.isValidNow (p : Promotion) (now : Instant) : Bool :=
  if p.status now != "active" then false
  else if p.days_of_week ≠ ""
      && !(splitCommas p.days_of_week.data).contains [weekdayChar now.weekday] then
    false
  else if (match p.start_time with
    | some s => decide (now.minuteOfDay < s)
    | none => false) then false
  else if (match p.end_time with
    | some e => decide (e < now.minuteOfDay)
    | none => false) then false
  else true

/-- `Promotion.calculate_discount` (src/models.py lines 237–248); the
minimum-purchase gate is truthiness-guarded because the field is nullable. -/
def Promotion.calculate_discount (p : Promotion) (order_total : ℚ) : ℚ :=
  if (match p.min_purchase with
    | some m => decide (m ≠ 0) && decide (order_total < m)
    | none => false) then 0
  else if p.discount_type == "percentage" then
    let d := order_total * (p.discount_value / 100)
    match p.max_discount with
    | some m => if m ≠ 0 then min d m else d
    | none => d
  else if p.discount_type == "fixed" then min p.discount_value order_total
  else 0

/-- Case-insensitive coupon-code match: `code__iexact=code.strip()` — the
stored code compared to the stripped input, ignoring ASCII case. -/
def couponMatchesCode (c : Coupon) (code : String) : Bool :=
  lowerChars c.code.data == lowerChars (stripChars code.data)

/-- Outcome of `Coupon.objects.get(code__iexact=...)`: zero, one, or more
matching rows (`DoesNotExist` / the row / `MultipleObjectsReturned`). -/
inductive CouponGet where
  | notFound
  | found (c : Coupon)
  | multiple
deriving DecidableEq

/-- `Coupon.objects.get(code__iexact=code.strip())` over the coupon table. -/
def getCouponByCode (coupons : List Coupon) (code : String) : CouponGet :=
  match coupons.filter (fun c => couponMatchesCode c code) with
  | [] => .notFound
  | [c] => .found c
  | _ :: _ :: _ => .multiple

/-- The `DiscountUsage.objects.filter(coupon=self, customer=customer,
is_deleted=False).count()` query consulted by `Coupon.can_use`. -/
def countUses (st : ServiceState) (c : Coupon) (customer : Option String) : Nat :=
  (st.usages.filter (fun u =>
    u.coupon_id == some c.id && u.customer == customer && !u.is_deleted)).length

/-- `DiscountService.validate_coupon` (src/services/discount_service.py
lines 79–105).  `none` models the uncaught `MultipleObjectsReturned`
exception; `DoesNotExist` is caught and reported as "Invalid coupon code". -/
def validate_coupon (st : ServiceState) (now : Instant) (code : String)
    (order_total : ℚ) (customer_id : Option String) :
    Option (Bool × String × Option Coupon) :=
  match getCouponByCode st.coupons code with
  | .multiple => none
  | .notFound => some (false, "Invalid coupon code", none)
  | .found c =>
    let r := c.can_use now customer_id (countUses st c customer_id) order_total
    if !r.1 then some (false, r.2, none)
    else some (true, "Coupon is valid", some c)

/-- `DiscountService.apply_coupon` (src/services/discount_service.py
lines 107–130). -/
def apply_coupon (st : ServiceState) (now : Instant) (code : String)
    (order_total : ℚ) (customer_id : Option String) :
    Option (ℚ × String × Option Coupon) :=
  match validate_coupon st now code order_total customer_id with
  | none => none
  | some (is_valid, message, copt) =>
    if !is_valid then some (0, message, none)
    else
      match copt with
      | some c =>
        let d := c.calculate_discount order_total
        some (d, "Coupon applied: -" ++ toString d, some c)
      | none => none

/-- Descending-priority insertion used to embed `order_by('-priority')`. -/
def insertByPriority (p : Promotion) : List Promotion → List Promotion
  | [] => [p]
  | q :: qs => if q.priority < p.priority then p :: q :: qs else q :: insertByPriority p qs

/-- Stable sort by descending `priority` (`order_by('-priority')`). -/
def sortByPriorityDesc (l : List Promotion) : List Promotion :=
  l.foldr insertByPriority []

/-- `DiscountService.get_active_promotions` (src/services/discount_service.py
lines 132–141): active promotions whose window contains `now`, by
descending priority. -/
def get_active_promotions (st : ServiceState) (now : Instant) : List Promotion :=
  sortByPriorityDesc (st.promotions.filter (fun p =>
    p.is_active && decide (p.valid_from ≤ now.stamp) && decide (now.stamp ≤ p.valid_until)))

/-- Modelled from the spec: the `DiscountScope` enumeration and the
`minimum_purchase` attribute referenced by `get_applicable_promotions` are
absent from `src/models.py` (they appear only in the service and the tests).
Spec §3 fixes the scope vocabulary as `order|products|categories|minimum`
(values confirmed by the repository's tests) and names a single optional
minimum-purchase threshold per promotion, embedded here as
`Promotion.min_purchase`.  This predicate is the per-promotion body of
`get_applicable_promotions` (src/services/discount_service.py lines
165–189): eligibility, truthy minimum-purchase gate, then the scope match
chain. -/
def promotionApplicable (now : Instant) (order_total : ℚ)
    (product_ids category_ids : List String) (p : Promotion) : Bool :=
  if !(p.isValidNow now) then false
  else if (match p.min_purchase with
    | some m => decide (m ≠ 0) && decide (order_total < m)
    | none => false) then false
  else if p.scope == "order" then true
  else if p.scope == "products" && !product_ids.isEmpty then
    p.product_members.any (fun x => product_ids.contains x)
  else if p.scope == "categories" && !category_ids.isEmpty then
    p.category_members.any (fun x => category_ids.contains x)
  else if p.scope == "minimum" then
    (match p.min_purchase with
      | some m => decide (m = 0) || decide (m ≤ order_total)
      | none => true)
  else false

/-- `DiscountService.get_applicable_promotions` (src/services/
discount_service.py lines 143–191): filter the active promotions, keeping
their descending-priority order. -/
def get_applicable_promotions (st : ServiceState) (now : Instant)
    (order_total : ℚ) (product_ids category_ids : List String) : List Promotion :=
  (get_active_promotions st now).filter
    (promotionApplicable now order_total product_ids category_ids)

/-- The accumulator of the promotion loop in `calculate_order_discounts`:
the applied list, `total_discount`, and `working_total`. -/
structure PromoAcc where
  applied : List AppliedDiscount
  total_discount : ℚ
  working_total : ℚ
deriving DecidableEq

/-- The `AppliedDiscount` entry built for a coupon (src/services/
discount_service.py lines 229–237): `original_total` records the order
total the discount was computed on. -/
def couponEntry (c : Coupon) (amount base : ℚ) : AppliedDiscount :=
  ⟨"coupon", c.id, c.name, c.discount_type, c.discount_value, amount, base⟩

/-- The `AppliedDiscount` entry built for a promotion (src/services/
discount_service.py lines 264–272): `original_total` records the running
`working_total` the discount was computed on. -/
def promoEntry (p : Promotion) (amount base : ℚ) : AppliedDiscount :=
  ⟨"promotion", p.id, p.name, p.discount_type, p.discount_value, amount, base⟩

/-- One application step of the promotion loop (src/services/
discount_service.py lines 262–274): append the entry computed against the
running `working_total`, add the amount to `total_discount`, and subtract it
from `working_total`. -/
def applyAcc (p : Promotion) (acc : PromoAcc) : PromoAcc :=
  ⟨acc.applied ++ [promoEntry p (p.calculate_discount acc.working_total) acc.working_total],
    acc.total_discount + p.calculate_discount acc.working_total,
    acc.working_total - p.calculate_discount acc.working_total⟩

/-- The promotion loop of `calculate_order_discounts` (src/services/
discount_service.py lines 258–278): skip non-stackable promotions when
stacking is off and something is already applied; apply positive discounts
against the running total; stop after the first applied non-stackable
promotion. -/
def promoPhase (allow_stacking : Bool) : List Promotion → PromoAcc → PromoAcc
  | [], acc => acc
  | p :: ps, acc =>
    if !allow_stacking && !acc.applied.isEmpty && !p.stackable then
      promoPhase allow_stacking ps acc
    else if 0 < p.calculate_discount acc.working_total then
      if !p.stackable then applyAcc p acc
      else promoPhase allow_stacking ps (applyAcc p acc)
    else promoPhase allow_stacking ps acc

/-- The `DiscountResult` constructor used by both returns of
`calculate_order_discounts`: `discounted_total = max(0, working_total)`. -/
def mkResult (order_total working_total total_discount : ℚ)
    (applied : List AppliedDiscount) (errors : List String) : DiscountResult :=
  ⟨order_total, max 0 working_total, total_discount, applied, errors⟩

/-- The tail of `calculate_order_discounts` after the coupon phase
(src/services/discount_service.py lines 253–286): gather applicable
promotions against the current working total, run the loop, and build the
result. -/
def promotionPhaseResult (st : ServiceState) (now : Instant) (order_total : ℚ)
    (product_ids category_ids : List String) (allow_stacking : Bool)
    (applied : List AppliedDiscount) (errors : List String)
    (total_discount working_total : ℚ) : DiscountResult :=
  let promos := get_applicable_promotions st now working_total product_ids category_ids
  let acc := promoPhase allow_stacking promos ⟨applied, total_discount, working_total⟩
  mkResult order_total acc.working_total acc.total_discount acc.applied errors

/-- `DiscountService.calculate_order_discounts` (src/services/
discount_service.py lines 193–286).  `none` models the one uncaught
exception (`MultipleObjectsReturned` from the coupon lookup).  The coupon
phase runs only for a truthy code; an eligible coupon with a positive
discount returns immediately unless `allow_stacking`; an invalid coupon
appends its message to `errors`; the promotion phase then runs on the
working total. -/
def calculate_order_discounts (st : ServiceState) (now : Instant)
    (order_total : ℚ) (coupon_code : Option String) (customer_id : Option String)
    (product_ids category_ids : List String) (allow_stacking : Bool) :
    Option DiscountResult :=
  if strTruthy coupon_code then
    match apply_coupon st now (coupon_code.getD "") order_total customer_id with
    | none => none
    | some (discount_amount, message, copt) =>
      match copt with
      | some c =>
        if 0 < discount_amount then
          if !allow_stacking then
            some (mkResult order_total (order_total - discount_amount) discount_amount
              [couponEntry c discount_amount order_total] [])
          else
            some (promotionPhaseResult st now order_total product_ids category_ids
              allow_stacking [couponEntry c discount_amount order_total] []
              discount_amount (order_total - discount_amount))
        else
          some (promotionPhaseResult st now order_total product_ids category_ids
            allow_stacking [] [] 0 order_total)
      | none =>
        some (promotionPhaseResult st now order_total product_ids category_ids
          allow_stacking [] [message] 0 order_total)
  else
    some (promotionPhaseResult st now order_total product_ids category_ids
      allow_stacking [] [] 0 order_total)

/-- Modelled from the spec: the Usage Ledger row appended by
`Coupon.record_usage`, which is called by
`DiscountService.record_coupon_usage` and exercised by the repository's
tests but is not defined in `src/models.py`.  Spec §4.4: the record links
the coupon to the optional customer and sale. -/
def newUsageRecord (coupon_id : String) (customer sale : Option String) : UsageRecord :=
  ⟨some coupon_id, none, customer, sale, false⟩

/-- `DiscountService.record_coupon_usage` (src/services/discount_service.py
lines 288–307), with `Coupon.record_usage` modelled from spec §4.4: look the
coupon up by case-insensitive code; if absent return `false` and change
nothing; otherwise atomically increment that coupon's usage counter (keyed
by primary key, as `save()` is) and append one Usage Record, returning
`true`.  `none` models the uncaught `MultipleObjectsReturned`. -/
def record_coupon_usage (st : ServiceState) (code : String)
    (customer sale : Option String) : Option (Bool × ServiceState) :=
  match getCouponByCode st.coupons code with
  | .notFound => some (false, st)
  | .multiple => none
  | .found c =>
    some (true,
      { st with
        coupons := st.coupons.map (fun d =>
          if d.id == c.id then { d with usage_count := d.usage_count + 1 } else d),
        usages := st.usages ++ [newUsageRecord c.id customer sale] })

/-- Sum of the `discount_amount` fields of a list of applied discounts. -/
def sumAmounts (l : List AppliedDiscount) : ℚ :=
  (l.map AppliedDiscount.discount_amount).sum

/-- The applied-discount list is chained on the running total starting from
`t`: each entry's recorded `original_total` is `t` minus the amounts of all
entries before it (so each discount was computed against the running
total). -/
def chainedFrom (t : ℚ) : List AppliedDiscount → Prop
  | [] => True
  | e :: rest => e.original_total = t ∧ chainedFrom (t - e.discount_amount) rest

/-- A fixed evaluation time used by the concrete scenarios. -/
def now0 : Instant := ⟨0, 0, 0⟩

/-- Scenario coupon `TEST10`: an active 10% order-scope coupon valid around
`now0`, with no caps or limits. -/
def test10 : Coupon :=
  ⟨"c1", "TEST10", "Test 10% Off", "", "percentage", 10, "order", 0, none,
    none, 1, 0, -10, some 10, none, none, none, 0, false, true⟩

/-- Scenario coupon `BIG`: an active fixed-amount coupon worth 500. -/
def big500 : Coupon :=
  ⟨"c2", "BIG", "Big Discount", "", "fixed", 500, "order", 0, none,
    none, 1, 0, -10, some 10, none, none, none, 0, false, true⟩

/-- Counterexample coupon for C1: an active percentage coupon whose
`discount_value` is 200.  Every field validator declared on the model holds
of it (`discount_value ≥ 0.01`; nothing bounds a percentage value by 100),
so it is a representable discount entity. -/
def over200 : Coupon :=
  ⟨"c3", "OVER", "Double Charge Back", "", "percentage", 200, "order", 0, none,
    none, 1, 0, -10, some 10, none, none, none, 0, false, true⟩

/-- Counterexample coupon for C3: simultaneously exhausted
(`usage_count = usage_limit = 1`) and not yet valid
(`valid_from = 10 > now0.stamp = 0`), otherwise unconstrained. -/
def exhaustedScheduled : Coupon :=
  ⟨"c4", "BOTH", "Both Blocked", "", "percentage", 10, "order", 0, none,
    some 1, 1, 1, 10, some 20, none, none, none, 0, false, true⟩

/-- Scenario promotion: eligible non-stackable 20% off the entire order,
priority 10. -/
def promo20 : Promotion :=
  ⟨"p1", "Big Sale", "", "percentage", 20, "order", none, none, -10, 10,
    "", none, none, none, none, none, 10, false, true, [], []⟩

/-- Scenario promotion: eligible stackable 5% off the entire order,
priority 1 (lower than `promo20`). -/
def promo5 : Promotion :=
  ⟨"p2", "Small Sale", "", "percentage", 5, "order", none, none, -10, 10,
    "", none, none, none, none, none, 1, true, true, [], []⟩

/-- C4 scenario state: both promotions (deliberately stored out of priority
order), no coupons. -/
def stC4 : ServiceState := ⟨[], [promo5, promo20], []⟩

/-- C5 scenario state: the `TEST10` coupon together with an eligible 20%-off
promotion. -/
def stC5 : ServiceState := ⟨[test10], [promo20], []⟩

/-- C7 scenario state: the 500-off fixed coupon `BIG`. -/
def stBig : ServiceState := ⟨[big500], [], []⟩

/-- C2 witness state: one coupon, no prior usage. -/
def stC2 : ServiceState := ⟨[test10], [], []⟩

/-- The C5 scenario result: exactly the coupon applied, total 90. -/
def resC5 : DiscountResult := ⟨100, 90, 10, [couponEntry test10 10 100], []⟩

/-- The C4 scenario result: exactly the 20% promotion applied, total 80. -/
def resC4 : DiscountResult := ⟨100, 80, 20, [promoEntry promo20 20 100], []⟩

/-- The C7 scenario result: the fixed 500 coupon capped at the 50 total. -/
def resBig : DiscountResult := ⟨50, 0, 50, [couponEntry big500 50 50], []⟩

/-- C8 witness state: the doubly-blocked coupon next to an eligible
promotion. -/
def stC8 : ServiceState := ⟨[exhaustedScheduled], [promo20], []⟩

theorem sumAmounts_nil : sumAmounts [] = 0 := rfl

theorem sumAmounts_cons (e : AppliedDiscount) (l : List AppliedDiscount) :
    sumAmounts (e :: l) = e.discount_amount + sumAmounts l := by
  simp [sumAmounts]

theorem sumAmounts_append_single (l : List AppliedDiscount) (e : AppliedDiscount) :
    sumAmounts (l ++ [e]) = sumAmounts l + e.discount_amount := by
  simp [sumAmounts]

theorem chainedFrom_append (t : ℚ) (l : List AppliedDiscount) (e : AppliedDiscount)
    (hl : chainedFrom t l) (he : e.original_total = t - sumAmounts l) :
    chainedFrom t (l ++ [e]) := by
  induction l generalizing t with
  | nil =>
    refine ⟨?_, trivial⟩
    simpa [sumAmounts] using he
  | cons a rest ih =>
    refine ⟨hl.1, ih (t - a.discount_amount) hl.2 ?_⟩
    rw [sumAmounts_cons] at he
    rw [he]
    ring

theorem mem_insertByPriority (p a : Promotion) (l : List Promotion) :
    a ∈ insertByPriority p l ↔ a = p ∨ a ∈ l := by
  induction l with
  | nil => simp [insertByPriority]
  | cons q qs ih =>
    by_cases h : q.priority < p.priority
    · simp [insertByPriority, h]
    · simp [insertByPriority, h, ih]
      tauto

theorem sortByPriorityDesc_cons (q : Promotion) (qs : List Promotion) :
    sortByPriorityDesc (q :: qs) = insertByPriority q (sortByPriorityDesc qs) := rfl

theorem mem_sortByPriorityDesc (a : Promotion) (l : List Promotion) :
    a ∈ sortByPriorityDesc l ↔ a ∈ l := by
  induction l with
  | nil => simp [sortByPriorityDesc]
  | cons q qs ih =>
    rw [sortByPriorityDesc_cons, mem_insertByPriority]
    simp [ih]

theorem pairwise_insertByPriority (p : Promotion) (l : List Promotion)
    (h : l.Pairwise (fun a b => b.priority ≤ a.priority)) :
    (insertByPriority p l).Pairwise (fun a b => b.priority ≤ a.priority) := by
  induction l with
  | nil => simp [insertByPriority]
  | cons q qs ih =>
    rcases List.pairwise_cons.mp h with ⟨hq, hqs⟩
    by_cases hlt : q.priority < p.priority
    · rw [insertByPriority, if_pos hlt]
      refine List.pairwise_cons.mpr ⟨?_, h⟩
      intro b hb
      rcases List.mem_cons.mp hb with rfl | hb'
      · exact le_of_lt hlt
      · exact le_trans (hq b hb') (le_of_lt hlt)
    · rw [insertByPriority, if_neg hlt]
      refine List.pairwise_cons.mpr ⟨?_, ih hqs⟩
      intro b hb
      rcases (mem_insertByPriority p b qs).mp hb with rfl | hb'
      · exact le_of_not_lt hlt
      · exact hq b hb'

theorem pairwise_sortByPriorityDesc (l : List Promotion) :
    (sortByPriorityDesc l).Pairwise (fun a b => b.priority ≤ a.priority) := by
  induction l with
  | nil => simp [sortByPriorityDesc]
  | cons q qs ih =>
    rw [sortByPriorityDesc_cons]
    exact pairwise_insertByPriority q _ ih

theorem mem_get_applicable_promotions (st : ServiceState) (now : Instant)
    (t : ℚ) (pids cids : List String) (p : Promotion)
    (h : p ∈ get_applicable_promotions st now t pids cids) : p ∈ st.promotions := by
  unfold get_applicable_promotions get_active_promotions at h
  have h1 := List.mem_of_mem_filter h
  have h2 := (mem_sortByPriorityDesc p _).mp h1
  exact List.mem_of_mem_filter h2

theorem pairwise_get_applicable_promotions (st : ServiceState) (now : Instant)
    (t : ℚ) (pids cids : List String) :
    (get_applicable_promotions st now t pids cids).Pairwise
      (fun a b => b.priority ≤ a.priority) := by
  unfold get_applicable_promotions get_active_promotions
  exact List.Pairwise.sublist (List.filter_sublist _) (pairwise_sortByPriorityDesc _)

theorem getCouponByCode_found (cs : List Coupon) (code : String) (c : Coupon)
    (h : getCouponByCode cs code = .found c) :
    c ∈ cs ∧ couponMatchesCode c code = true := by
  unfold getCouponByCode at h
  split at h
  · cases h
  · rename_i c' hf
    cases h
    have hc : c ∈ List.filter (fun c => couponMatchesCode c code) cs := by
      rw [hf]; exact List.mem_singleton_self _
    exact ⟨(List.mem_filter.mp hc).1, (List.mem_filter.mp hc).2⟩
  · cases h

theorem apply_coupon_some_coupon (st : ServiceState) (now : Instant) (code : String)
    (t : ℚ) (cust : Option String) (d : ℚ) (msg : String) (c : Coupon)
    (h : apply_coupon st now code t cust = some (d, msg, some c)) :
    c ∈ st.coupons ∧ d = c.calculate_discount t ∧
    (c.can_use now cust (countUses st c cust) t).1 = true := by
  unfold apply_coupon validate_coupon at h
  rcases hg : getCouponByCode st.coupons code with _ | c' | _ <;> rw [hg] at h
  · simp at h
  · rcases hcu : (c'.can_use now cust (countUses st c' cust) t).1 with _ | _ <;>
      simp [hcu] at h
    rcases h with ⟨rfl, rfl, rfl⟩
    exact ⟨(getCouponByCode_found _ _ _ hg).1, rfl, hcu⟩
  · simp at h

theorem promoPhase_inv (t : ℚ) (allow : Bool) (ps : List Promotion) (acc : PromoAcc)
    (h1 : acc.working_total = t - acc.total_discount)
    (h2 : acc.total_discount = sumAmounts acc.applied)
    (h3 : ∀ e ∈ acc.applied, 0 < e.discount_amount)
    (h4 : chainedFrom t acc.applied) :
    (promoPhase allow ps acc).working_total = t - (promoPhase allow ps acc).total_discount ∧
    (promoPhase allow ps acc).total_discount = sumAmounts (promoPhase allow ps acc).applied ∧
    (∀ e ∈ (promoPhase allow ps acc).applied, 0 < e.discount_amount) ∧
    chainedFrom t (promoPhase allow ps acc).applied ∧
    (∀ e ∈ (promoPhase allow ps acc).applied, e ∈ acc.applied ∨
      ∃ p ∈ ps, e = promoEntry p (p.calculate_discount e.original_total) e.original_total) := by
  induction ps generalizing acc with
  | nil =>
    refine ⟨h1, h2, h3, h4, fun e he => Or.inl ?_⟩
    simpa [promoPhase] using he
  | cons p ps ih =>
    have hacc' : ∀ hyp1 : acc.working_total = t - acc.total_discount,
        (applyAcc p acc).working_total = t - (applyAcc p acc).total_discount ∧
        (applyAcc p acc).total_discount = sumAmounts (applyAcc p acc).applied ∧
        ((0:ℚ) < p.calculate_discount acc.working_total →
          ∀ e ∈ (applyAcc p acc).applied, 0 < e.discount_amount) ∧
        chainedFrom t (applyAcc p acc).applied := by
      intro hyp1
      refine ⟨by simp [applyAcc]; linarith, ?_, ?_, ?_⟩
      · simp [applyAcc, sumAmounts_append_single, promoEntry, h2]
      · intro hpos e he
        simp [applyAcc] at he
        rcases he with he | he
        · exact h3 e he
        · rw [he]; simpa [promoEntry] using hpos
      · refine chainedFrom_append t _ _ h4 ?_
        simp [promoEntry]
        rw [hyp1, h2]
    rw [promoPhase]
    by_cases hskip : (!allow && !acc.applied.isEmpty && !p.stackable) = true
    · rw [if_pos hskip]
      obtain ⟨a1, a2, a3, a4, a5⟩ := ih acc h1 h2 h3 h4
      exact ⟨a1, a2, a3, a4, fun e he => (a5 e he).imp id
        (fun ⟨q, hq, hb⟩ => ⟨q, List.mem_cons_of_mem p hq, hb⟩)⟩
    · rw [if_neg hskip]
      by_cases hpos : (0:ℚ) < p.calculate_discount acc.working_total
      · rw [if_pos hpos]
        obtain ⟨b1, b2, b3, b4⟩ := hacc' h1
        have hmemnew : ∀ e ∈ (applyAcc p acc).applied, e ∈ acc.applied ∨
            ∃ q ∈ p :: ps, e = promoEntry q (q.calculate_discount e.original_total) e.original_total := by
          intro e he
          simp [applyAcc] at he
          rcases he with he | he
          · exact Or.inl he
          · refine Or.inr ⟨p, List.mem_cons_self p ps, ?_⟩
            rw [he]
            simp [promoEntry]
        by_cases hst : (!p.stackable) = true
        · rw [if_pos hst]
          exact ⟨b1, b2, b3 hpos, b4, hmemnew⟩
        · rw [if_neg hst]
          obtain ⟨a1, a2, a3, a4, a5⟩ := ih (applyAcc p acc) b1 b2 (b3 hpos) b4
          refine ⟨a1, a2, a3, a4, fun e he => ?_⟩
          rcases a5 e he with hbase | ⟨q, hq, hb⟩
          · rcases hmemnew e hbase with h' | h'
            · exact Or.inl h'
            · exact Or.inr h'
          · exact Or.inr ⟨q, List.mem_cons_of_mem p hq, hb⟩
      · rw [if_neg hpos]
        obtain ⟨a1, a2, a3, a4, a5⟩ := ih acc h1 h2 h3 h4
        exact ⟨a1, a2, a3, a4, fun e he => (a5 e he).imp id
          (fun ⟨q, hq, hb⟩ => ⟨q, List.mem_cons_of_mem p hq, hb⟩)⟩

theorem promotionPhaseResult_inv (st : ServiceState) (now : Instant) (t : ℚ)
    (pids cids : List String) (allow : Bool) (applied : List AppliedDiscount)
    (errors : List String) (td wt : ℚ)
    (hwt : wt = t - td) (htd : td = sumAmounts applied)
    (hpos : ∀ e ∈ applied, 0 < e.discount_amount)
    (hch : chainedFrom t applied)
    (hcoup : ∀ e ∈ applied, e.source = "coupon" →
      e.original_total = t ∧ ∃ c ∈ st.coupons, e = couponEntry c (c.calculate_discount t) t)
    (hprom : ∀ e ∈ applied, e.source = "promotion" →
      ∃ p ∈ st.promotions, e = promoEntry p (p.calculate_discount e.original_total) e.original_total) :
    (promotionPhaseResult st now t pids cids allow applied errors td wt).original_total = t ∧
    (promotionPhaseResult st now t pids cids allow applied errors td wt).total_discount =
      sumAmounts (promotionPhaseResult st now t pids cids allow applied errors td wt).applied_discounts ∧
    (∀ e ∈ (promotionPhaseResult st now t pids cids allow applied errors td wt).applied_discounts,
      0 < e.discount_amount) ∧
    (promotionPhaseResult st now t pids cids allow applied errors td wt).discounted_total =
      max 0 (t - (promotionPhaseResult st now t pids cids allow applied errors td wt).total_discount) ∧
    chainedFrom t (promotionPhaseResult st now t pids cids allow applied errors td wt).applied_discounts ∧
    (∀ e ∈ (promotionPhaseResult st now t pids cids allow applied errors td wt).applied_discounts,
      e.source = "coupon" →
      e.original_total = t ∧ ∃ c ∈ st.coupons, e = couponEntry c (c.calculate_discount t) t) ∧
    (∀ e ∈ (promotionPhaseResult st now t pids cids allow applied errors td wt).applied_discounts,
      e.source = "promotion" →
      ∃ p ∈ st.promotions, e = promoEntry p (p.calculate_discount e.original_total) e.original_total) ∧
    (promotionPhaseResult st now t pids cids allow applied errors td wt).errors = errors := by
  obtain ⟨a1, a2, a3, a4, a5⟩ :=
    promoPhase_inv t allow (get_applicable_promotions st now wt pids cids)
      ⟨applied, td, wt⟩ (by simpa using hwt) (by simpa using htd) (by simpa using hpos)
      (by simpa using hch)
  refine ⟨rfl, ?_, ?_, ?_, ?_, ?_, ?_, rfl⟩
  · simpa [promotionPhaseResult, mkResult] using a2
  · simpa [promotionPhaseResult, mkResult] using a3
  · simp only [promotionPhaseResult, mkResult]
    rw [a1]
  · simpa [promotionPhaseResult, mkResult] using a4
  · intro e he hsrc
    simp only [promotionPhaseResult, mkResult] at he
    rcases a5 e he with hb | ⟨q, _, hq⟩
    · exact hcoup e (by simpa using hb) hsrc
    · rw [hq] at hsrc
      simp [promoEntry] at hsrc
  · intro e he hsrc
    simp only [promotionPhaseResult, mkResult] at he
    rcases a5 e he with hb | ⟨q, hqmem, hq⟩
    · exact hprom e (by simpa using hb) hsrc
    · exact ⟨q, mem_get_applicable_promotions st now wt pids cids q hqmem, hq⟩

theorem calc_inv (st : ServiceState) (now : Instant) (t : ℚ) (code : Option String)
    (cust : Option String) (pids cids : List String) (allow : Bool) (r : DiscountResult)
    (h : calculate_order_discounts st now t code cust pids cids allow = some r) :
    r.original_total = t ∧
    r.total_discount = sumAmounts r.applied_discounts ∧
    (∀ e ∈ r.applied_discounts, 0 < e.discount_amount) ∧
    r.discounted_total = max 0 (t - r.total_discount) ∧
    chainedFrom t r.applied_discounts ∧
    (∀ e ∈ r.applied_discounts, e.source = "coupon" →
      e.original_total = t ∧ ∃ c ∈ st.coupons, e = couponEntry c (c.calculate_discount t) t) ∧
    (∀ e ∈ r.applied_discounts, e.source = "promotion" →
      ∃ p ∈ st.promotions, e = promoEntry p (p.calculate_discount e.original_total) e.original_total) := by
  have base := fun (errors : List String) =>
    promotionPhaseResult_inv st now t pids cids allow [] errors 0 t
      (by ring) rfl (by simp) trivial (by simp) (by simp)
  unfold calculate_order_discounts at h
  by_cases htr : strTruthy code = true
  · rw [if_pos htr] at h
    split at h
    · cases h
    · rename_i d msg copt happ
      split at h
      · rename_i c
        obtain ⟨hcmem, hdval, _⟩ :=
          apply_coupon_some_coupon st now (code.getD "") t cust d msg c happ
        split at h
        · rename_i hd
          split at h
          · injection h with h
            subst h
            refine ⟨rfl, ?_, ?_, ?_, ?_, ?_, ?_⟩
            · simp [mkResult, sumAmounts, couponEntry]
            · intro e he
              simp [mkResult, couponEntry] at he
              rw [he]
              simpa [couponEntry] using hd
            · simp [mkResult]
            · exact ⟨rfl, trivial⟩
            · intro e he hsrc
              simp [mkResult] at he
              rw [he]
              exact ⟨rfl, c, hcmem, by rw [hdval]⟩
            · intro e he hsrc
              simp [mkResult] at he
              rw [he] at hsrc
              simp [couponEntry] at hsrc
          · injection h with h
            subst h
            obtain ⟨a1, a2, a3, a4, a5, a6, a7, _⟩ :=
              promotionPhaseResult_inv st now t pids cids allow
                [couponEntry c d t] [] d (t - d) rfl
                (by simp [sumAmounts, couponEntry])
                (by intro e he; simp at he; rw [he]; simpa [couponEntry] using hd)
                ⟨rfl, trivial⟩
                (by
                  intro e he hsrc
                  simp at he
                  rw [he]
                  exact ⟨rfl, c, hcmem, by rw [hdval]⟩)
                (by
                  intro e he hsrc
                  simp at he
                  rw [he] at hsrc
                  simp [couponEntry] at hsrc)
            exact ⟨a1, a2, a3, a4, a5, a6, a7⟩
        · injection h with h
          subst h
          obtain ⟨a1, a2, a3, a4, a5, a6, a7, _⟩ := base []
          exact ⟨a1, a2, a3, a4, a5, a6, a7⟩
      · injection h with h
        subst h
        obtain ⟨a1, a2, a3, a4, a5, a6, a7, _⟩ := base [msg]
        exact ⟨a1, a2, a3, a4, a5, a6, a7⟩
  · rw [if_neg htr] at h
    injection h with h
    subst h
    obtain ⟨a1, a2, a3, a4, a5, a6, a7, _⟩ := base []
    exact ⟨a1, a2, a3, a4, a5, a6, a7⟩

theorem filter_eq_nil_of_forall {α : Type} (p : α → Bool) (l : List α)
    (h : ∀ a ∈ l, p a = false) : l.filter p = [] := by
  induction l with
  | nil => rfl
  | cons a l ih =>
    rw [List.filter_cons_of_neg (by simp [h a (List.mem_cons_self a l)])]
    exact ih (fun b hb => h b (List.mem_cons_of_mem a hb))

theorem map_fix_of_forall {α : Type} (f : α → α) (l : List α)
    (h : ∀ a ∈ l, f a = a) : l.map f = l := by
  induction l with
  | nil => rfl
  | cons a l ih =>
    rw [List.map_cons, h a (List.mem_cons_self a l),
      ih (fun b hb => h b (List.mem_cons_of_mem a hb))]

theorem scenC5_eval :
    calculate_order_discounts stC5 now0 100 (some "TEST10") none [] [] false = some resC5 := by
  have hget : getCouponByCode stC5.coupons "TEST10" = .found test10 := by decide
  have hval : validate_coupon stC5 now0 "TEST10" 100 none =
      some (true, "Coupon is valid", some test10) := by
    simp only [validate_coupon, hget]
    norm_num [Coupon.can_use, Coupon.isValidNow, Coupon.status, Coupon.usageExhausted,
      Coupon.pastUntil, strTruthy, test10, now0]
  have happ : apply_coupon stC5 now0 "TEST10" 100 none =
      some (10, "Coupon applied: -" ++ toString (10 : ℚ), some test10) := by
    simp only [apply_coupon, hval]
    norm_num [Coupon.calculate_discount, test10]
  simp only [calculate_order_discounts, strTruthy, Option.getD_some, happ]
  norm_num [mkResult, couponEntry, resC5, test10]
  exact fun h => absurd h (by decide)

theorem scenC4_eval :
    calculate_order_discounts stC4 now0 100 none none [] [] true = some resC4 := by
  simp only [calculate_order_discounts, strTruthy]
  norm_num [promotionPhaseResult, get_applicable_promotions, get_active_promotions,
    sortByPriorityDesc, insertByPriority, promotionApplicable, Promotion.isValidNow,
    Promotion.status, Promotion.calculate_discount, promoPhase, applyAcc, promoEntry,
    mkResult, resC4, stC4, promo20, promo5, now0]

theorem scenBig_eval :
    calculate_order_discounts stBig now0 50 (some "BIG") none [] [] false = some resBig := by
  have hget : getCouponByCode stBig.coupons "BIG" = .found big500 := by decide
  have hval : validate_coupon stBig now0 "BIG" 50 none =
      some (true, "Coupon is valid", some big500) := by
    simp only [validate_coupon, hget]
    norm_num [Coupon.can_use, Coupon.isValidNow, Coupon.status, Coupon.usageExhausted,
      Coupon.pastUntil, strTruthy, big500, now0]
  have happ : apply_coupon stBig now0 "BIG" 50 none =
      some (50, "Coupon applied: -" ++ toString (50 : ℚ), some big500) := by
    simp only [apply_coupon, hval]
    norm_num [Coupon.calculate_discount, big500]
    exact ⟨by decide, by rw [if_neg (by decide)]⟩
  simp only [calculate_order_discounts, strTruthy, Option.getD_some, happ]
  norm_num [mkResult, couponEntry, resBig, big500]
  exact fun h => absurd h (by decide)

/-- C1 counterexample: the coupon `over200` (percentage type, `discount_value`
200, no cap — every validator declared on the model accepts it) discounts a
total of 100 by 200, so `calculate_discount` does not return an amount at
most the order total for every discount entity. -/
theorem C1_counterexample :
    (0:ℚ) < over200.discount_value ∧ over200.discount_type = "percentage" ∧
    over200.max_discount = none ∧
    Coupon.calculate_discount over200 100 = 200 ∧
    ¬(Coupon.calculate_discount over200 100 ≤ 100) := by
  refine ⟨by norm_num [over200], rfl, rfl, ?_, ?_⟩ <;>
    norm_num [Coupon.calculate_discount, over200]

/-- C1 (amended): for every order total `T ≥ 0` and every discount entity
whose value is nonnegative, whose percentage value (when percentage-typed)
is at most 100, and whose maximum-discount cap (when set) is nonnegative,
`calculate_discount` returns an amount `≥ 0` and `≤ T`; the embedded
function is pure, so it has no side effects. -/
theorem C1_calculate_discount_bounds (t : ℚ) (c : Coupon) (p : Promotion)
    (ht : 0 ≤ t)
    (hcv : 0 ≤ c.discount_value)
    (hcp : c.discount_type = "percentage" → c.discount_value ≤ 100)
    (hcm : ∀ m, c.max_discount = some m → 0 ≤ m)
    (hpv : 0 ≤ p.discount_value)
    (hpp : p.discount_type = "percentage" → p.discount_value ≤ 100)
    (hpm : ∀ m, p.max_discount = some m → 0 ≤ m) :
    (0 ≤ c.calculate_discount t ∧ c.calculate_discount t ≤ t) ∧
    (0 ≤ p.calculate_discount t ∧ p.calculate_discount t ≤ t) := by
  constructor
  · simp only [Coupon.calculate_discount]
    split
    · exact ⟨le_refl 0, ht⟩
    · split
      · rename_i hper
        have hv100 : c.discount_value ≤ 100 := hcp (by simpa using hper)
        have hd0 : 0 ≤ t * (c.discount_value / 100) :=
          mul_nonneg ht (div_nonneg hcv (by norm_num))
        have hdt : t * (c.discount_value / 100) ≤ t := by nlinarith
        split
        · rename_i m hm
          split
          · exact ⟨le_min hd0 (hcm m hm), le_trans (min_le_left _ _) hdt⟩
          · exact ⟨hd0, hdt⟩
        · exact ⟨hd0, hdt⟩
      · split
        · exact ⟨le_min hcv ht, min_le_right _ _⟩
        · exact ⟨le_refl 0, ht⟩
  · simp only [Promotion.calculate_discount]
    split
    · exact ⟨le_refl 0, ht⟩
    · split
      · rename_i hper
        have hv100 : p.discount_value ≤ 100 := hpp (by simpa using hper)
        have hd0 : 0 ≤ t * (p.discount_value / 100) :=
          mul_nonneg ht (div_nonneg hpv (by norm_num))
        have hdt : t * (p.discount_value / 100) ≤ t := by nlinarith
        split
        · rename_i m hm
          split
          · exact ⟨le_min hd0 (hpm m hm), le_trans (min_le_left _ _) hdt⟩
          · exact ⟨hd0, hdt⟩
        · exact ⟨hd0, hdt⟩
      · split
        · exact ⟨le_min hpv ht, min_le_right _ _⟩
        · exact ⟨le_refl 0, ht⟩

/-- C1 witness: the amended bound at the concrete entities `test10` and
`promo20` on a total of 100. -/
theorem C1_witness :
    (0 ≤ Coupon.calculate_discount test10 100 ∧ Coupon.calculate_discount test10 100 ≤ 100) ∧
    (0 ≤ Promotion.calculate_discount promo20 100 ∧ Promotion.calculate_discount promo20 100 ≤ 100) :=
  C1_calculate_discount_bounds 100 test10 promo20 (by norm_num)
    (by norm_num [test10]) (fun _ => by norm_num [test10])
    (fun m hm => by simp [test10] at hm)
    (by norm_num [promo20]) (fun _ => by norm_num [promo20])
    (fun m hm => by simp [promo20] at hm)

/-- C3 counterexample: the coupon `exhaustedScheduled` is simultaneously not
yet valid (`now0.stamp < valid_from`) and exhausted
(`usage_count ≥ usage_limit`), yet `can_use` reports the exhausted reason,
not the scheduled one — the usage-limit check runs before the `valid_from`
check, contradicting the claimed order. -/
theorem C3_counterexample :
    exhaustedScheduled.is_active = true ∧
    exhaustedScheduled.usageExhausted = true ∧
    now0.stamp < exhaustedScheduled.valid_from ∧
    Coupon.can_use exhaustedScheduled now0 none 0 100 = (false, "Coupon is exhausted") ∧
    (Coupon.can_use exhaustedScheduled now0 none 0 100).2 ≠ "Coupon is scheduled" := by
  refine ⟨rfl, by decide, by decide, ?_, ?_⟩ <;>
    norm_num [Coupon.can_use, Coupon.isValidNow, Coupon.status, Coupon.usageExhausted,
      Coupon.pastUntil, strTruthy, exhaustedScheduled, now0] <;> decide

/-- C3 (amended): coupon eligibility is an ordered short-circuiting chain,
but in the order active flag, then usage limit, then `valid_from`, then
`valid_until`; in particular a coupon that is both not yet valid and
exhausted reports the exhausted reason, and whenever the status chain fails,
`can_use` reports exactly that first failing status as its reason. -/
theorem C3_eligibility_order (c : Coupon) (now : Instant) (cust : Option String)
    (uses : Nat) (t : ℚ) :
    (c.is_active = false → c.status now = "inactive") ∧
    (c.is_active = true → c.usageExhausted = true → c.status now = "exhausted") ∧
    (c.is_active = true → c.usageExhausted = false → now.stamp < c.valid_from →
      c.status now = "scheduled") ∧
    (c.is_active = true → c.usageExhausted = false → ¬(now.stamp < c.valid_from) →
      c.pastUntil now = true → c.status now = "expired") ∧
    (c.status now ≠ "active" →
      c.can_use now cust uses t = (false, "Coupon is " ++ c.status now)) := by
  refine ⟨?_, ?_, ?_, ?_, ?_⟩
  · intro h1
    simp [Coupon.status, h1]
  · intro h1 h2
    simp [Coupon.status, h1, h2]
  · intro h1 h2 h3
    simp [Coupon.status, h1, h2, h3]
  · intro h1 h2 h3 h4
    simp [Coupon.status, h1, h2, h3, h4]
  · intro h1
    have hb : (c.status now == "active") = false := beq_eq_false_iff_ne.mpr h1
    simp [Coupon.can_use, Coupon.isValidNow, hb]

/-- C3 witness: the amended order at the doubly-blocked concrete coupon. -/
theorem C3_witness :
    exhaustedScheduled.status now0 = "exhausted" ∧
    Coupon.can_use exhaustedScheduled now0 none 0 100 =
      (false, "Coupon is " ++ exhaustedScheduled.status now0) := by
  have h := C3_eligibility_order exhaustedScheduled now0 none 0 100
  have hs : exhaustedScheduled.status now0 = "exhausted" := h.2.1 rfl (by decide)
  exact ⟨hs, h.2.2.2.2 (by rw [hs]; decide)⟩

/-- C9 (confirmed): for a coupon that is active, not exhausted, meets the
minimum-purchase threshold, and has no per-customer block (falsy customer),
`can_use` is eligible exactly when `valid_from ≤ now` and, when a
`valid_until` is set, `now ≤ valid_until` — boundary-inclusive on both
ends. -/
theorem C9_time_window (c : Coupon) (now : Instant) (cust : Option String)
    (uses : Nat) (t : ℚ)
    (hact : c.is_active = true)
    (hex : c.usageExhausted = false)
    (hmin : c.min_purchase ≤ t)
    (hcust : strTruthy cust = false) :
    (c.can_use now cust uses t).1 = true ↔
      (c.valid_from ≤ now.stamp ∧ ∀ u, c.valid_until = some u → now.stamp ≤ u) := by
  have hnlt : ¬(t < c.min_purchase) := not_lt.mpr hmin
  rcases hvu : c.valid_until with _ | u
  · by_cases hfrom : now.stamp < c.valid_from
    · simp only [Coupon.can_use, Coupon.isValidNow, Coupon.status, Coupon.pastUntil,
        hact, hex, hvu, hfrom]
      simp [hnlt, hcust]
      omega
    · simp only [Coupon.can_use, Coupon.isValidNow, Coupon.status, Coupon.pastUntil,
        hact, hex, hvu, hfrom]
      simp [hnlt, hcust]
      omega
  · by_cases hfrom : now.stamp < c.valid_from
    · simp only [Coupon.can_use, Coupon.isValidNow, Coupon.status, Coupon.pastUntil,
        hact, hex, hvu, hfrom]
      simp [hnlt, hcust]
      intro h
      omega
    · by_cases hu : u < now.stamp
      · simp only [Coupon.can_use, Coupon.isValidNow, Coupon.status, Coupon.pastUntil,
          hact, hex, hvu, hfrom, hu]
        simp [hnlt, hcust]
        exact fun _ => hu
      · simp only [Coupon.can_use, Coupon.isValidNow, Coupon.status, Coupon.pastUntil,
          hact, hex, hvu, hfrom, hu]
        simp [hnlt, hcust]
        exact ⟨by omega, by omega⟩

/-- C9 witness: the window test at `test10` (valid on `[-10, 10]`) and
`now0` (time 0), which is eligible. -/
theorem C9_witness :
    (Coupon.can_use test10 now0 none 0 100).1 = true ∧ test10.valid_from ≤ now0.stamp := by
  have h := C9_time_window test10 now0 none 0 100 rfl rfl (by norm_num [test10]) rfl
  refine ⟨h.mpr ⟨by decide, ?_⟩, by decide⟩
  intro u hu
  simp only [test10] at hu
  cases hu
  decide

/-- C2 (confirmed, `Coupon.record_usage` modelled from spec §4.4): when
exactly one stored coupon matches the code case-insensitively (primary keys
being unique), `record_coupon_usage` increments that coupon's `usage_count`
by exactly one, appends exactly one Usage Record for it, and returns `true`;
when no stored coupon matches, it returns `false` and the state is
unchanged. -/
theorem C2_record_coupon_usage (st : ServiceState) (code : String)
    (cust sale : Option String) (l₁ l₂ : List Coupon) (c : Coupon)
    (hcs : st.coupons = l₁ ++ c :: l₂)
    (hm : couponMatchesCode c code = true)
    (hl₁ : ∀ d ∈ l₁, couponMatchesCode d code = false)
    (hl₂ : ∀ d ∈ l₂, couponMatchesCode d code = false)
    (hid : ∀ d, d ∈ l₁ ∨ d ∈ l₂ → d.id ≠ c.id) :
    record_coupon_usage st code cust sale =
      some (true,
        ⟨l₁ ++ { c with usage_count := c.usage_count + 1 } :: l₂,
          st.promotions,
          st.usages ++ [newUsageRecord c.id cust sale]⟩) ∧
    (∀ st' code' cust' sale',
      (∀ d ∈ st'.coupons, couponMatchesCode d code' = false) →
      record_coupon_usage st' code' cust' sale' = some (false, st')) := by
  constructor
  · have hfilter : st.coupons.filter (fun d => couponMatchesCode d code) = [c] := by
      rw [hcs, List.filter_append, filter_eq_nil_of_forall _ _ hl₁, List.filter_cons,
        filter_eq_nil_of_forall _ _ hl₂, if_pos hm]
      rfl
    have hmap : st.coupons.map (fun d =>
        if d.id == c.id then { d with usage_count := d.usage_count + 1 } else d) =
        l₁ ++ { c with usage_count := c.usage_count + 1 } :: l₂ := by
      rw [hcs, List.map_append, List.map_cons]
      rw [map_fix_of_forall _ l₁
        (fun d hd => by rw [if_neg (by simpa using hid d (Or.inl hd))])]
      rw [map_fix_of_forall _ l₂
        (fun d hd => by rw [if_neg (by simpa using hid d (Or.inr hd))])]
      rw [if_pos (by simp)]
    unfold record_coupon_usage getCouponByCode
    rw [hfilter]
    simp only [hmap]
  · intro st' code' cust' sale' hnone
    unfold record_coupon_usage getCouponByCode
    rw [filter_eq_nil_of_forall _ _ hnone]

/-- C2 witness: recording `test10` (via its lower-cased code) increments it
and appends one record; recording an unknown code changes nothing. -/
theorem C2_witness :
    record_coupon_usage stC2 "test10" (some "cust-1") (some "sale-1") =
      some (true,
        ⟨[] ++ { test10 with usage_count := test10.usage_count + 1 } :: [],
          stC2.promotions,
          stC2.usages ++ [newUsageRecord test10.id (some "cust-1") (some "sale-1")]⟩) ∧
    record_coupon_usage stC2 "NOPE" none none = some (false, stC2) := by
  have h := C2_record_coupon_usage stC2 "test10" (some "cust-1") (some "sale-1")
    [] [] test10 rfl (by decide) (by simp) (by simp) (by simp)
  exact ⟨h.1, h.2 stC2 "NOPE" none none (by decide)⟩

/-- C4 (confirmed): applicable promotions carry descending priority order;
with stacking allowed the loop applies a positive-discount non-stackable
promotion and stops immediately (the remaining promotions are ignored); and
in the concrete scenario — stacking on, no coupon, a non-stackable 20%
promotion of priority 10 and a stackable 5% promotion of priority 1 on a
100 order — exactly one discount of 20 is applied and the total discount is
20. -/
theorem C4_priority_and_stop :
    (∀ st now t pids cids, (get_applicable_promotions st now t pids cids).Pairwise
      (fun a b => b.priority ≤ a.priority)) ∧
    (∀ ps p acc, p.stackable = false → 0 < p.calculate_discount acc.working_total →
      promoPhase true (p :: ps) acc = applyAcc p acc) ∧
    calculate_order_discounts stC4 now0 100 none none [] [] true = some resC4 := by
  refine ⟨pairwise_get_applicable_promotions, ?_, scenC4_eval⟩
  intro ps p acc hstack hpos
  rw [promoPhase]
  rw [if_neg (by simp)]
  rw [if_pos hpos, if_pos (by simp [hstack])]

/-- C4 witness: the three parts at the concrete scenario state. -/
theorem C4_witness :
    (get_applicable_promotions stC4 now0 100 [] []).Pairwise
      (fun a b => b.priority ≤ a.priority) ∧
    promoPhase true [promo20, promo5] ⟨[], 0, 100⟩ = applyAcc promo20 ⟨[], 0, 100⟩ ∧
    calculate_order_discounts stC4 now0 100 none none [] [] true = some resC4 :=
  ⟨C4_priority_and_stop.1 stC4 now0 100 [] [],
    C4_priority_and_stop.2.1 [promo5] promo20 ⟨[], 0, 100⟩ rfl
      (by norm_num [Promotion.calculate_discount, promo20]),
    C4_priority_and_stop.2.2⟩

/-- C5 (confirmed): when the supplied code is truthy, `apply_coupon` finds a
coupon with a positive discount, and stacking is off,
`calculate_order_discounts` returns immediately with exactly that one
applied discount — for every promotion table, so promotions are not
evaluated at all; concretely, `TEST10` (10% of 100) with stacking off yields
exactly one applied discount of 10 and a discounted total of 90 even though
an eligible 20% promotion exists in the state. -/
theorem C5_coupon_exclusive :
    (∀ (cs : List Coupon) (ps : List Promotion) (us : List UsageRecord)
      (now : Instant) (t : ℚ) (code : String) (cust : Option String)
      (pids cids : List String) (d : ℚ) (msg : String) (c : Coupon),
      code ≠ "" →
      apply_coupon ⟨cs, ps, us⟩ now code t cust = some (d, msg, some c) →
      0 < d →
      calculate_order_discounts ⟨cs, ps, us⟩ now t (some code) cust pids cids false =
        some (mkResult t (t - d) d [couponEntry c d t] [])) ∧
    calculate_order_discounts stC5 now0 100 (some "TEST10") none [] [] false = some resC5 := by
  refine ⟨?_, scenC5_eval⟩
  intro cs ps us now t code cust pids cids d msg c hcode happ hd
  simp only [calculate_order_discounts, strTruthy, Option.getD_some, happ]
  rw [if_pos (by simpa using hcode), if_pos hd, if_pos (by decide)]

/-- C5 witness: the exclusive early return at the concrete `TEST10`
scenario, instantiated through the universal part. -/
theorem C5_witness :
    calculate_order_discounts ⟨[test10], [promo20], []⟩ now0 100 (some "TEST10")
      none [] [] false = some (mkResult 100 (100 - 10) 10 [couponEntry test10 10 100] []) :=
  C5_coupon_exclusive.1 [test10] [promo20] [] now0 100 "TEST10" none [] [] 10
    ("Coupon applied: -" ++ toString (10:ℚ)) test10 (by decide)
    (by
      have hget : getCouponByCode ([test10] : List Coupon) "TEST10" = .found test10 := by decide
      simp only [apply_coupon, validate_coupon, hget]
      norm_num [Coupon.can_use, Coupon.isValidNow, Coupon.status, Coupon.usageExhausted,
        Coupon.pastUntil, strTruthy, countUses, Coupon.calculate_discount, test10, now0])
    (by norm_num)

/-- C6 (confirmed): in every returned result the applied list is chained on
the running total — each entry's recorded base is the order total minus all
previously applied amounts, every coupon entry is computed against the
original order total, every promotion entry is computed against its recorded
running total — and each applied amount is added to `total_discount` and
subtracted from the working total (whose clamp is `discounted_total`). -/
theorem C6_discount_bases (st : ServiceState) (now : Instant) (t : ℚ)
    (code cust : Option String) (pids cids : List String) (allow : Bool)
    (r : DiscountResult)
    (h : calculate_order_discounts st now t code cust pids cids allow = some r) :
    chainedFrom t r.applied_discounts ∧
    (∀ e ∈ r.applied_discounts, e.source = "coupon" →
      e.original_total = t ∧ ∃ c ∈ st.coupons, e = couponEntry c (c.calculate_discount t) t) ∧
    (∀ e ∈ r.applied_discounts, e.source = "promotion" →
      ∃ p ∈ st.promotions, e = promoEntry p (p.calculate_discount e.original_total) e.original_total) ∧
    r.total_discount = sumAmounts r.applied_discounts ∧
    r.discounted_total = max 0 (t - r.total_discount) := by
  obtain ⟨_, a2, _, a4, a5, a6, a7⟩ := calc_inv st now t code cust pids cids allow r h
  exact ⟨a5, a6, a7, a2, a4⟩

/-- C6 witness: the chaining facts at the concrete `TEST10` scenario. -/
theorem C6_witness :
    chainedFrom 100 resC5.applied_discounts ∧
    resC5.total_discount = sumAmounts resC5.applied_discounts := by
  have h := C6_discount_bases stC5 now0 100 (some "TEST10") none [] [] false resC5 scenC5_eval
  exact ⟨h.1, h.2.2.2.1⟩

/-- C7 (confirmed): every returned `discounted_total` equals
`max 0 (order_total - total_discount)` (the clamp of the final working
total) and is never negative; concretely a 500 fixed coupon on a 50 order
yields a discounted total of 0. -/
theorem C7_discounted_total_clamped :
    (∀ (st : ServiceState) (now : Instant) (t : ℚ) (code cust : Option String)
      (pids cids : List String) (allow : Bool) (r : DiscountResult),
      calculate_order_discounts st now t code cust pids cids allow = some r →
      r.discounted_total = max 0 (t - r.total_discount) ∧ 0 ≤ r.discounted_total) ∧
    calculate_order_discounts stBig now0 50 (some "BIG") none [] [] false = some resBig ∧
    resBig.discounted_total = 0 := by
  refine ⟨?_, scenBig_eval, rfl⟩
  intro st now t code cust pids cids allow r h
  obtain ⟨_, _, _, a4, _, _, _⟩ := calc_inv st now t code cust pids cids allow r h
  exact ⟨a4, a4 ▸ le_max_left 0 _⟩

/-- C7 witness: the clamp at the concrete 500-off-on-50 scenario. -/
theorem C7_witness :
    resBig.discounted_total = max 0 (50 - resBig.total_discount) ∧
    0 ≤ resBig.discounted_total :=
  C7_discounted_total_clamped.1 stBig now0 50 (some "BIG") none [] [] false resBig
    C7_discounted_total_clamped.2.1

/-- C10 (confirmed): every returned result (early coupon-only return or
final return) keeps `original_total` equal to the input total, has only
positive applied amounts, has `total_discount` equal to the sum of the
applied amounts, and has
`discounted_total = max 0 (original_total - total_discount)`. -/
theorem C10_result_invariants (st : ServiceState) (now : Instant) (t : ℚ)
    (code cust : Option String) (pids cids : List String) (allow : Bool)
    (r : DiscountResult)
    (h : calculate_order_discounts st now t code cust pids cids allow = some r) :
    r.original_total = t ∧
    (∀ e ∈ r.applied_discounts, 0 < e.discount_amount) ∧
    r.total_discount = sumAmounts r.applied_discounts ∧
    r.discounted_total = max 0 (r.original_total - r.total_discount) := by
  obtain ⟨a1, a2, a3, a4, _, _, _⟩ := calc_inv st now t code cust pids cids allow r h
  exact ⟨a1, a3, a2, by rw [a1]; exact a4⟩

/-- C10 witness: the invariants at the concrete promotion scenario. -/
theorem C10_witness :
    resC4.original_total = 100 ∧
    (∀ e ∈ resC4.applied_discounts, 0 < e.discount_amount) ∧
    resC4.total_discount = sumAmounts resC4.applied_discounts ∧
    resC4.discounted_total = max 0 (resC4.original_total - resC4.total_discount) :=
  C10_result_invariants stC4 now0 100 none none [] [] true resC4 scenC4_eval

/-- C8 (confirmed): ordinary ineligibility never escapes as an exception —
an unknown truthy code appends exactly "Invalid coupon code" to `errors`,
a found-but-ineligible coupon appends exactly its `can_use` reason, and in
both cases the returned result is the complete promotion-phase result of the
same call without a coupon code, differing only in `errors`. -/
theorem C8_error_accumulation :
    (∀ (st : ServiceState) (now : Instant) (t : ℚ) (code : String)
      (cust : Option String) (pids cids : List String) (allow : Bool),
      code ≠ "" →
      getCouponByCode st.coupons code = .notFound →
      ∃ r0, calculate_order_discounts st now t none cust pids cids allow = some r0 ∧
        r0.errors = [] ∧
        calculate_order_discounts st now t (some code) cust pids cids allow =
          some ⟨r0.original_total, r0.discounted_total, r0.total_discount,
            r0.applied_discounts, ["Invalid coupon code"]⟩) ∧
    (∀ (st : ServiceState) (now : Instant) (t : ℚ) (code : String)
      (cust : Option String) (pids cids : List String) (allow : Bool) (c : Coupon),
      code ≠ "" →
      getCouponByCode st.coupons code = .found c →
      (c.can_use now cust (countUses st c cust) t).1 = false →
      ∃ r0, calculate_order_discounts st now t none cust pids cids allow = some r0 ∧
        r0.errors = [] ∧
        calculate_order_discounts st now t (some code) cust pids cids allow =
          some ⟨r0.original_total, r0.discounted_total, r0.total_discount,
            r0.applied_discounts, [(c.can_use now cust (countUses st c cust) t).2]⟩) := by
  constructor
  · intro st now t code cust pids cids allow hcode hget
    refine ⟨promotionPhaseResult st now t pids cids allow [] [] 0 t, rfl, rfl, ?_⟩
    have happ : apply_coupon st now code t cust =
        some (0, "Invalid coupon code", none) := by
      simp only [apply_coupon, validate_coupon, hget]
      rfl
    simp only [calculate_order_discounts, strTruthy, Option.getD_some, happ]
    rw [if_pos (by simpa using hcode)]
    rfl
  · intro st now t code cust pids cids allow c hcode hget hfail
    refine ⟨promotionPhaseResult st now t pids cids allow [] [] 0 t, rfl, rfl, ?_⟩
    have happ : apply_coupon st now code t cust =
        some (0, (c.can_use now cust (countUses st c cust) t).2, none) := by
      simp only [apply_coupon, validate_coupon, hget, hfail]
      rfl
    simp only [calculate_order_discounts, strTruthy, Option.getD_some, happ]
    rw [if_pos (by simpa using hcode)]
    rfl

/-- C8 witness: both error paths at a concrete state — an unknown code, and
the doubly-blocked coupon `BOTH`, next to an eligible promotion. -/
theorem C8_witness :
    (∃ r0, calculate_order_discounts stC8 now0 100 none none [] [] false = some r0 ∧
      r0.errors = [] ∧
      calculate_order_discounts stC8 now0 100 (some "NOPE") none [] [] false =
        some ⟨r0.original_total, r0.discounted_total, r0.total_discount,
          r0.applied_discounts, ["Invalid coupon code"]⟩) ∧
    (∃ r0, calculate_order_discounts stC8 now0 100 none none [] [] false = some r0 ∧
      r0.errors = [] ∧
      calculate_order_discounts stC8 now0 100 (some "BOTH") none [] [] false =
        some ⟨r0.original_total, r0.discounted_total, r0.total_discount,
          r0.applied_discounts,
          [(exhaustedScheduled.can_use now0 none (countUses stC8 exhaustedScheduled none) 100).2]⟩) :=
  ⟨C8_error_accumulation.1 stC8 now0 100 "NOPE" none [] [] false (by decide) (by decide),
    C8_error_accumulation.2 stC8 now0 100 "BOTH" none [] [] false exhaustedScheduled
      (by decide) (by decide)
      (by
        norm_num [Coupon.can_use, Coupon.isValidNow, Coupon.status, Coupon.usageExhausted,
          Coupon.pastUntil, strTruthy, exhaustedScheduled, now0]
        decide)⟩
